import Mathlib

/-!
Shallow embedding of the synchronization-primitives library: the standard
mutex (src/include/sync_prim/mutex/Mutex.h) and the fair mutex with its
deadlock detector (src/include/sync_prim/mutex/FairMutex.h).  Machine
integers are modelled as Nat with explicit reduction modulo 2 ^ w where
overflow matters; pointers are modelled as Nat identities, nullable
pointers as Option Nat.
-/

namespace SyncPrim

/-- Result codes of a lock acquisition (MutexLockResult in common.h). -/
inductive MutexLockResult where
  | LOCKED
  | DEADLOCKED
deriving DecidableEq

/-- Result codes of folly ParkingLot park and park_for. -/
inductive ParkResult where
  | Skip
  | Unpark
  | Timeout
deriving DecidableEq

namespace StdMutex

/-- High bit of thread_id_t, modelled as a 32-bit integer:
M_CONTENDED_MASK = 1 shifted to the sign position. -/
def M_CONTENDED_MASK : Nat := 2 ^ 31

/-- M_UNLOCKED = -1 AND NOT M_CONTENDED_MASK: all ones except the high bit. -/
def M_UNLOCKED : Nat := 2 ^ 31 - 1

/-- Lock word of the lean (no deadlock detection) standard mutex. -/
inductive LockState where
  | LS_UNLOCKED
  | LS_LOCKED
  | LS_CONTENTED
deriving DecidableEq

/-- LockWord::is_lock_contented, deadlock-safe branch, exactly as the source
computes it: (word AND M_CONTENDED_MASK) == 0. -/
def is_lock_contented (w : Nat) : Bool := (w &&& M_CONTENDED_MASK) == 0

/-- LockWord::as_uncontented_word, deadlock-safe branch: clear the high bit. -/
def as_uncontented_word (w : Nat) : Nat := w &&& (2 ^ 31 - 1)

/-- LockWord::get_contented_word, deadlock-safe branch: the thread id of the
caller with the high bit set. -/
def get_contented_word (tid : Nat) : Nat := tid ||| M_CONTENDED_MASK

/-- LockWord::get_lock_word, deadlock-safe branch: the plain thread id. -/
def get_lock_word (tid : Nat) : Nat := tid

/-- LockWord::is_locked, deadlock-safe branch. -/
def is_locked (w : Nat) : Bool := decide (w ≠ M_UNLOCKED)

/-- MutexImpl::unlock, lean variant: exchange the word to LS_UNLOCKED and
unpark one waiter (RemoveBreak) iff the prior state compared equal to
LS_CONTENTED.  The second component counts unpark calls. -/
def unlock_three_state (old : LockState) : LockState × Nat :=
  (LockState.LS_UNLOCKED, if old = LockState.LS_CONTENTED then 1 else 0)

/-- MutexImpl::unlock, deadlock-safe variant: exchange the word to M_UNLOCKED
and unpark one waiter (RemoveBreak) iff is_lock_contented held of the prior
word.  The second component counts unpark calls. -/
def unlock_safe (old : Nat) : Nat × Nat :=
  (M_UNLOCKED, if is_lock_contented old then 1 else 0)

/-- Walk of the detect_deadlock lambda in MutexImpl::check_deadlock.
lwOf maps a mutex identity to its current lock word, tbl is the
thread_waiting_on table (thread id to announced mutex).  waiters accumulates
the recorded (thread id, lock) pairs in insertion order; fuel bounds the
walk, with exhaustion modelled as no cycle found. -/
def detect_loop (lwOf : Nat → Nat) (tbl : Nat → Option Nat) :
    Nat → List (Nat × Nat) → Nat → Option (List (Nat × Nat))
  | 0, _, _ => none
  | fuel + 1, waiters, waiting_on =>
    let holder := as_uncontented_word (lwOf waiting_on)
    if holder = M_UNLOCKED then none
    else
      match tbl holder with
      | none => none
      | some next =>
        if waiters.any (fun p => p.1 == holder) then some waiters
        else detect_loop lwOf tbl fuel (waiters ++ [(holder, next)]) next

/-- MutexImpl::check_deadlock, detection phase: the caller self starts the
walk with its own (self, selfLock) record at the lock it waits on. -/
def detect_deadlock (lwOf : Nat → Nat) (tbl : Nat → Option Nat)
    (self selfLock fuel : Nat) : Option (List (Nat × Nat)) :=
  detect_loop lwOf tbl fuel [(self, selfLock)] selfLock

/-- MutexImpl::check_deadlock: detect a cycle against the table snapshot tbl1,
then verify every recorded pair against the snapshot tbl2 taken while holding
dead_lock_verify_mutex; on success denounce the own slot of self.  Returns
the result together with the table after the call. -/
def check_deadlock (lwOf : Nat → Nat) (tbl1 tbl2 : Nat → Option Nat)
    (self selfLock fuel : Nat) : Bool × (Nat → Option Nat) :=
  match detect_deadlock lwOf tbl1 self selfLock fuel with
  | none => (false, tbl2)
  | some ws =>
    if ws.all (fun p => tbl2 p.1 == some p.2) then
      (true, fun t => if t = self then none else tbl2 t)
    else (false, tbl2)

/-- MutexImpl::park, deadlock-safe variant, reduced to its result: park
reports a deadlock iff park_for timed out and check_deadlock confirmed. -/
def park_safe (res : ParkResult) (checkRes : Bool) : Bool :=
  res == ParkResult.Timeout && checkRes

/-- One iteration of MutexImpl::lock_contended: try_lock_contended CASes
M_UNLOCKED to the contended word of self; on failure park, and if park
reports a deadlock return DEADLOCKED with the word untouched, else retry
(none).  The second component is the lock word after the iteration. -/
def lock_contended_step (self w : Nat) (res : ParkResult) (checkRes : Bool) :
    Option MutexLockResult × Nat :=
  if w = M_UNLOCKED then (some MutexLockResult.LOCKED, get_contented_word self)
  else if park_safe res checkRes then (some MutexLockResult.DEADLOCKED, w)
  else (none, w)

end StdMutex

namespace FairMutex

/-- Modulus of the 32-bit num_waiters field. -/
def U32 : Nat := 2 ^ 32

/-- Modulus of the 64-bit wait token counter. -/
def U64 : Nat := 2 ^ 64

/-- FairMutexImpl::LockWord: holder thread id and 32-bit waiter count,
packed and swapped atomically as one unit. -/
structure LockWord where
  holder : Nat
  num_waiters : Nat
deriving DecidableEq

/-- LockWord::get_unlocked_word: INVALID_HOLDER (= MAX_THREADS) and no
waiters.  maxThreads is the compile-time MAX_THREADS of the registry. -/
def get_unlocked_word (maxThreads : Nat) : LockWord := ⟨maxThreads, 0⟩

/-- LockWord::get_lock_word: the calling thread as holder, no waiters. -/
def get_lock_word (tid : Nat) : LockWord := ⟨tid, 0⟩

/-- LockWord::is_locked. -/
def LockWord.is_locked (maxThreads : Nat) (w : LockWord) : Bool :=
  decide (w.holder ≠ maxThreads)

/-- LockWord::is_locked_by_me, evaluated for a given observing thread. -/
def LockWord.is_locked_by_me (w : LockWord) (tid : Nat) : Bool :=
  decide (w.holder = tid)

/-- LockWord::has_waiters. -/
def LockWord.has_waiters (w : LockWord) : Bool := decide (w.num_waiters ≠ 0)

/-- LockWord::transfer_lock: new holder tid, num_waiters - 1 in uint32
arithmetic. -/
def LockWord.transfer_lock (w : LockWord) (tid : Nat) : LockWord :=
  ⟨tid, (w.num_waiters + (U32 - 1)) % U32⟩

/-- LockWord::increment_num_waiters in uint32 arithmetic. -/
def LockWord.increment_num_waiters (w : LockWord) : LockWord :=
  ⟨w.holder, (w.num_waiters + 1) % U32⟩

/-- LockWord::decrement_num_waiters in uint32 arithmetic; no guard exists
against the count being zero. -/
def LockWord.decrement_num_waiters (w : LockWord) : LockWord :=
  ⟨w.holder, (w.num_waiters + (U32 - 1)) % U32⟩

/-- FairMutexImpl::decrement_num_waiters: the CAS retry loop applies the
word-level decrement to whatever word it reads, unconditionally. -/
def impl_decrement_num_waiters (w : LockWord) : LockWord :=
  w.decrement_num_waiters

/-- FairMutexImpl::try_lock: CAS the unlocked word to the lock word of the
caller; on mismatch the word is unchanged. -/
def try_lock (maxThreads tid : Nat) (w : LockWord) : Bool × LockWord :=
  if w = get_unlocked_word maxThreads then (true, get_lock_word tid)
  else (false, w)

/-- WaitNodeData stored in the parking lot by the fair mutex: thread id,
wait token, and the deadlocked flag (a pointer in the source, modelled by
value with per-thread flag maps where the detector writes it). -/
structure WaitNodeData where
  tid : Nat
  wait_token : Nat
  is_dead_locked : Bool
deriving DecidableEq

/-- Internal result codes of FairMutexImpl::park. -/
inductive ParkRes where
  | PARKRES_RETRY
  | PARKRES_LOCKED
  | PARKRES_DEADLOCKED
deriving DecidableEq

/-- Dispatch logic of FairMutexImpl::park after a successful
increment_num_waiters, given the folly park result and the final value of
the is_dead_locked flag.  Returns the PARKRES code together with the number
of decrement_num_waiters calls performed: the parking wrapper decrements
once when the flag is set, and the Skip branch of the switch decrements once
more and reports PARKRES_LOCKED.  The Timeout branch is unreachable (the
fair variant parks without a timeout) and falls through to PARKRES_RETRY. -/
def park_dispatch (res : ParkResult) (d : Bool) : ParkRes × Nat :=
  let innerDec : Nat := if d then 1 else 0
  match res with
  | ParkResult.Skip => (ParkRes.PARKRES_LOCKED, innerDec + 1)
  | ParkResult.Unpark =>
      ((if d then ParkRes.PARKRES_DEADLOCKED else ParkRes.PARKRES_LOCKED),
       innerDec)
  | ParkResult.Timeout => (ParkRes.PARKRES_RETRY, innerDec)

/-- What FairMutexImpl::lock does with each PARKRES code: retry the
acquisition loop (none) or return the result. -/
def lock_result_of : ParkRes → Option MutexLockResult
  | ParkRes.PARKRES_RETRY => none
  | ParkRes.PARKRES_LOCKED => some MutexLockResult.LOCKED
  | ParkRes.PARKRES_DEADLOCKED => some MutexLockResult.DEADLOCKED

/-- One iteration of FairMutexImpl::unlock given the current word and the
FIFO queue of waiters parked on this mutex.  With a nonzero waiter count the
unpark filter hands the lock to the first parked waiter via transfer_lock
and removes it (RemoveBreak); an empty queue despite the count means nobody
was woken and the loop retries (none).  With a zero count the word is CASed
to the unlocked word. -/
def unlock_step (maxThreads : Nat) (w : LockWord) (q : List WaitNodeData) :
    Option (LockWord × List WaitNodeData) :=
  if w.num_waiters ≠ 0 then
    match q with
    | [] => none
    | n :: rest => some (w.transfer_lock n.tid, rest)
  else some (get_unlocked_word maxThreads, q)

/-- ThreadWaitInfo of the deadlock-safe fair mutex: announced lock (nullable
pointer), steady-clock stamp of the wait start, and the uint64 wait token
counter. -/
structure ThreadWaitInfo where
  waiting_on : Option Nat
  wait_start_time : Nat
  current_wait_token : Nat
deriving DecidableEq

/-- ThreadWaitInfo::announce_wait, deadlock-safe mode: stamp the clock,
publish the lock, pre-increment the counter and return the new token. -/
def announce_wait (info : ThreadWaitInfo) (lock now : Nat) :
    Nat × ThreadWaitInfo :=
  let tok := (info.current_wait_token + 1) % U64
  (tok, ⟨some lock, now, tok⟩)

/-- ThreadWaitInfo::denounce_wait: clear the announced lock only. -/
def denounce_wait (info : ThreadWaitInfo) : ThreadWaitInfo :=
  { info with waiting_on := none }

/-- State of a wait-info block after k wait announcements (the announced
lock and clock stamp do not influence the token, so fixed arguments are
used for the intermediate episodes). -/
def iter_announce (info : ThreadWaitInfo) : Nat → ThreadWaitInfo
  | 0 => info
  | k + 1 => (announce_wait (iter_announce info k) 0 0).2

/-- WaiterInfo entries of the detector map; absent keys read through
operator square-brackets yield the zero-initialized value (null lock,
token 0). -/
structure WaiterInfo where
  lock : Option Nat
  wait_token : Nat
deriving DecidableEq

/-- DeadlockDetector::select_waiter: fold over the lock cycle in map
iteration order, tracking the latest wait_start_time seen so far (lt) and
its thread (lw), and abort with INVALID_THREADID (inv) as soon as a member
announces a lock different from the recorded one.  The source updates the
running maximum before the staleness test, but those locals are dead on the
aborting return path, so the test is hoisted here. -/
def select_waiter (gwi : Nat → ThreadWaitInfo) (inv : Nat) :
    List (Nat × Nat) → Nat → Nat → Nat
  | [], _, lw => lw
  | (tid, lk) :: rest, lt, lw =>
    if (gwi tid).waiting_on = some lk then
      if lt < (gwi tid).wait_start_time then
        select_waiter gwi inv rest (gwi tid).wait_start_time tid
      else
        select_waiter gwi inv rest lt lw
    else inv

/-- Entry of the global parking lot: the mutex parked on (park is always
called with the mutex address, never null) and the WaitNodeData payload. -/
structure LotEntry where
  key : Nat
  data : WaitNodeData
deriving DecidableEq

/-- Point update of a per-thread flag map, modelling the write through the
is_dead_locked pointer of one waiter. -/
def set_flag (fl : Nat → Bool) (t : Nat) : Nat → Bool :=
  fun x => if x = t then true else fl x

/-- The unpark performed by DeadlockDetector::verify_lock_cycle: scan the
lot in order for a node parked on key whose tid and wait_token both match;
mark it dead locked, remove it and stop (RemoveBreak).  Every other node is
retained and the scan continues (RetainContinue).  Returns the lot, the
flag map and whether a victim was unparked. -/
def verify_unpark (key : Option Nat) (wtid wtok : Nat) :
    List LotEntry → (Nat → Bool) → List LotEntry × (Nat → Bool) × Bool
  | [], fl => ([], fl, false)
  | n :: rest, fl =>
    if some n.key = key ∧ n.data.tid = wtid ∧ n.data.wait_token = wtok then
      (rest, set_flag fl n.data.tid, true)
    else
      let r := verify_unpark key wtid wtok rest fl
      (n :: r.1, r.2.1, r.2.2)

/-- DeadlockDetector::verify_lock_cycle: empty cycles fail immediately;
otherwise select the victim with select_waiter (initial time is the
default-constructed epoch 0, initial waiter INVALID_THREADID = inv), look
it up in the waiters map and unpark it on the recorded lock. -/
def verify_lock_cycle (gwi : Nat → ThreadWaitInfo) (inv : Nat)
    (waiters : Nat → WaiterInfo) (lot : List LotEntry) (fl : Nat → Bool)
    (cycle : List (Nat × Nat)) : List LotEntry × (Nat → Bool) × Bool :=
  if cycle.isEmpty then (lot, fl, false)
  else
    let w := select_waiter gwi inv cycle 0 inv
    verify_unpark (waiters w).lock w (waiters w).wait_token lot fl

end FairMutex

/-! Concrete scenarios used by witness and counterexample theorems. -/

/-- Wait-info table where threads 2 and 5 are announced on locks 100 and 200
with equal wait start times. -/
def gwiTie : Nat → FairMutex.ThreadWaitInfo :=
  fun t =>
    if t = 2 then ⟨some 100, 10, 1⟩
    else if t = 5 then ⟨some 200, 10, 1⟩
    else ⟨none, 0, 0⟩

/-- Waiters map with every entry at its zero-initialized default. -/
def wtrsDefault : Nat → FairMutex.WaiterInfo := fun _ => ⟨none, 0⟩

/-- Flag map with no thread marked dead locked. -/
def flFalse : Nat → Bool := fun _ => false

/-- A parking lot holding one node: thread 2 parked on lock 100. -/
def lotC7 : List FairMutex.LotEntry := [⟨100, ⟨2, 1, false⟩⟩]

/-- Lock words of a two-mutex deadlock: mutex 10 is held by thread 1 and
mutex 20 is held by thread 0; everything else is unlocked. -/
def lwOf8 : Nat → Nat :=
  fun p => if p = 10 then 1 else if p = 20 then 0 else StdMutex.M_UNLOCKED

/-- thread_waiting_on table of the same deadlock: thread 0 waits on mutex
10, thread 1 waits on mutex 20. -/
def tblC8 : Nat → Option Nat :=
  fun t => if t = 0 then some 10 else if t = 1 then some 20 else none

/-! Helper lemmas shared between the claim theorems. -/

/-- Decrementing a nonzero uint32 value below the modulus is ordinary
subtraction. -/
theorem dec_mod_eq (n : Nat) (h0 : n ≠ 0) (h : n < FairMutex.U32) :
    (n + (FairMutex.U32 - 1)) % FairMutex.U32 = n - 1 := by
  have hU : FairMutex.U32 = 4294967296 := by norm_num [FairMutex.U32]
  rw [hU] at h ⊢
  omega

/-- The wait token after k announcements is the initial counter plus k,
modulo 2 ^ 64. -/
theorem iter_announce_token (info : FairMutex.ThreadWaitInfo)
    (hlt : info.current_wait_token < FairMutex.U64) :
    ∀ k, (FairMutex.iter_announce info k).current_wait_token =
      (info.current_wait_token + k) % FairMutex.U64 := by
  intro k
  induction k with
  | zero => simpa [FairMutex.iter_announce] using (Nat.mod_eq_of_lt hlt).symm
  | succ k ih =>
    simp only [FairMutex.iter_announce, FairMutex.announce_wait, ih]
    rw [Nat.mod_add_mod]
    ring_nf

/-! Claim theorems. -/

/-- Claim C1: the fair mutex lock word stores a single holder thread id, so
on any word value at most one thread observes is_locked_by_me true; since
try_lock, lock, unlock and transfer_lock each produce some LockWord again,
every operation preserves this property between atomic operations. -/
theorem fair_mutex_single_holder (w : FairMutex.LockWord) (t1 t2 : Nat)
    (h1 : w.is_locked_by_me t1 = true) (h2 : w.is_locked_by_me t2 = true) :
    t1 = t2 := by
  simp only [FairMutex.LockWord.is_locked_by_me, decide_eq_true_eq] at h1 h2
  omega

/-- Witness for C1 at the concrete word with holder 3. -/
theorem fair_mutex_single_holder_w :
    (FairMutex.LockWord.is_locked_by_me ⟨3, 0⟩ 3 = true ∧
     FairMutex.LockWord.is_locked_by_me ⟨3, 0⟩ 3 = true) ∧ (3 : Nat) = 3 :=
  ⟨⟨by decide, by decide⟩,
   fair_mutex_single_holder ⟨3, 0⟩ 3 3 (by decide) (by decide)⟩

/-- Claim C2, evaluation at the failing inputs: the deadlock-safe standard
mutex computes is_lock_contented as (word AND M_CONTENDED_MASK) == 0, the
inverse of the specified encoding.  The contended words (high bit set) of
threads 0 and 5 are reported as not contended, while the plain holder word
and the unlocked sentinel are reported as contended. -/
theorem std_is_lock_contented_inverted :
    StdMutex.is_lock_contented (StdMutex.get_contented_word 0) = false ∧
    StdMutex.is_lock_contented (StdMutex.get_contented_word 5) = false ∧
    StdMutex.is_lock_contented (StdMutex.get_lock_word 0) = true ∧
    StdMutex.is_lock_contented StdMutex.M_UNLOCKED = true := by decide

/-- Claim C3, evaluation at the failing input: unlock exchanges the word to
the unlocked value in both modes, and the lean mode unparks exactly one
waiter iff the prior state was LS_CONTENTED; but in the deadlock-safe mode
the inverted is_lock_contented makes unlock skip the unpark when the prior
word was the contended word of thread 0, and perform an unpark when the
prior word was the plain uncontended holder word. -/
theorem std_unlock_unpark_eval :
    StdMutex.unlock_three_state StdMutex.LockState.LS_CONTENTED =
      (StdMutex.LockState.LS_UNLOCKED, 1) ∧
    StdMutex.unlock_three_state StdMutex.LockState.LS_LOCKED =
      (StdMutex.LockState.LS_UNLOCKED, 0) ∧
    StdMutex.unlock_safe (StdMutex.get_contented_word 0) =
      (StdMutex.M_UNLOCKED, 0) ∧
    StdMutex.unlock_safe (StdMutex.get_lock_word 0) =
      (StdMutex.M_UNLOCKED, 1) := by decide

/-- Claim C4 counterexample: when park returns Skip with the is_dead_locked
flag set, the code performs two decrements and reports PARKRES_LOCKED, not
one decrement with a DEADLOCKED result as the claim states. -/
theorem fair_park_skip_deadlocked_cex :
    FairMutex.park_dispatch ParkResult.Skip true =
      (FairMutex.ParkRes.PARKRES_LOCKED, 2) ∧
    ((FairMutex.ParkRes.PARKRES_LOCKED, 2) : FairMutex.ParkRes × Nat) ≠
      (FairMutex.ParkRes.PARKRES_DEADLOCKED, 1) := by decide

/-- Claim C4 amended: when park returns Skip the code always reports
PARKRES_LOCKED, so lock returns LOCKED rather than retrying or reporting
DEADLOCKED; num_waiters is decremented once by the Skip branch, plus once
more by the parking wrapper when the is_dead_locked flag was set. -/
theorem fair_park_skip_amended (d : Bool) :
    FairMutex.park_dispatch ParkResult.Skip d =
      (FairMutex.ParkRes.PARKRES_LOCKED, if d then 2 else 1) ∧
    FairMutex.lock_result_of (FairMutex.park_dispatch ParkResult.Skip d).1 =
      some MutexLockResult.LOCKED := by
  cases d <;> simp [FairMutex.park_dispatch, FairMutex.lock_result_of]

/-- Claim C10: the word-level decrement computes the new count modulo 2 ^ 32
with no underflow guard, so decrementing at zero wraps to 2 ^ 32 - 1; the
impl-level CAS loop applies it to whatever word it reads, unconditionally;
and the Skip-after-deadlock path of park performs two decrements for one
registration. -/
theorem decrement_num_waiters_wraps :
    (∀ h : Nat, (FairMutex.impl_decrement_num_waiters ⟨h, 0⟩).num_waiters =
      FairMutex.U32 - 1) ∧
    (∀ h n : Nat, (FairMutex.impl_decrement_num_waiters ⟨h, n⟩).num_waiters =
      (n + (FairMutex.U32 - 1)) % FairMutex.U32) ∧
    (FairMutex.park_dispatch ParkResult.Skip true).2 = 2 :=
  ⟨fun _ => by
     show (0 + (FairMutex.U32 - 1)) % FairMutex.U32 = FairMutex.U32 - 1
     decide,
   fun _ _ => rfl, by decide⟩

/-- Claim C5: when unlock sees a nonzero waiter count and the unpark filter
sees a waiter, ownership is transferred in place: the word becomes the
first waiter as holder with num_waiters - 1, and that waiter is removed
(RemoveBreak); when the count is zero, unlock CASes the word of the sole
holder to the unlocked word instead. -/
theorem fair_unlock_handoff (maxThreads self : Nat) (w : FairMutex.LockWord)
    (n : FairMutex.WaitNodeData) (rest q : List FairMutex.WaitNodeData)
    (h0 : w.num_waiters ≠ 0) (hlt : w.num_waiters < FairMutex.U32) :
    FairMutex.unlock_step maxThreads w (n :: rest) =
      some (⟨n.tid, w.num_waiters - 1⟩, rest) ∧
    FairMutex.unlock_step maxThreads ⟨self, 0⟩ q =
      some (FairMutex.get_unlocked_word maxThreads, q) := by
  constructor
  · simp only [FairMutex.unlock_step, if_pos h0, FairMutex.LockWord.transfer_lock,
      dec_mod_eq w.num_waiters h0 hlt]
  · simp [FairMutex.unlock_step]

/-- Witness for C5: a word with holder 1 and two waiters hands off to the
parked thread 5 leaving one waiter, and a word with zero waiters is
released to the unlocked word. -/
theorem fair_unlock_handoff_w :
    ((⟨1, 2⟩ : FairMutex.LockWord).num_waiters ≠ 0 ∧
     (⟨1, 2⟩ : FairMutex.LockWord).num_waiters < FairMutex.U32) ∧
    (FairMutex.unlock_step 8 ⟨1, 2⟩ [⟨5, 7, false⟩] = some (⟨5, 1⟩, []) ∧
     FairMutex.unlock_step 8 ⟨3, 0⟩ [] = some (FairMutex.get_unlocked_word 8, [])) :=
  ⟨⟨by decide, by decide⟩,
   fair_unlock_handoff 8 3 ⟨1, 2⟩ ⟨5, 7, false⟩ [] [] (by decide) (by decide)⟩

/-- Claim C9: as long as the uint64 counter does not wrap (which would need
2 ^ 64 wait episodes of one thread), current_wait_token strictly increases
with each wait announcement of a thread, so no two distinct wait episodes
share a token. -/
theorem wait_token_strictly_increases (info : FairMutex.ThreadWaitInfo)
    (i j : Nat) (hij : i < j)
    (hbound : info.current_wait_token + j < FairMutex.U64) :
    (FairMutex.iter_announce info i).current_wait_token <
      (FairMutex.iter_announce info j).current_wait_token := by
  have hlt : info.current_wait_token < FairMutex.U64 := by omega
  rw [iter_announce_token info hlt i, iter_announce_token info hlt j,
    Nat.mod_eq_of_lt (by omega), Nat.mod_eq_of_lt (by omega)]
  omega

/-- Witness for C9: from a fresh wait-info block, the token of episode 1 is
below the token of episode 3. -/
theorem wait_token_strictly_increases_w :
    ((0 : Nat) < 2 ∧
     (FairMutex.ThreadWaitInfo.mk none 0 0).current_wait_token + 2 <
       FairMutex.U64) ∧
    (FairMutex.iter_announce ⟨none, 0, 0⟩ 0).current_wait_token <
      (FairMutex.iter_announce ⟨none, 0, 0⟩ 2).current_wait_token :=
  ⟨⟨by decide, by decide⟩,
   wait_token_strictly_increases ⟨none, 0, 0⟩ 0 2 (by decide) (by decide)⟩

/-- A select_waiter scan over members that are all non-stale and none of
which beats the accumulated latest time returns the accumulated waiter. -/
theorem select_waiter_no_update (gwi : Nat → FairMutex.ThreadWaitInfo)
    (inv : Nat) (post : List (Nat × Nat)) :
    ∀ lt lw, (∀ p ∈ post, (gwi p.1).waiting_on = some p.2) →
      (∀ p ∈ post, (gwi p.1).wait_start_time ≤ lt) →
      FairMutex.select_waiter gwi inv post lt lw = lw := by
  induction post with
  | nil => intro lt lw _ _; rfl
  | cons q rest ih =>
    intro lt lw hns hle
    obtain ⟨tid, lk⟩ := q
    have h1 : (gwi tid).waiting_on = some lk :=
      hns (tid, lk) (List.mem_cons_self _ _)
    have h2 : ¬ lt < (gwi tid).wait_start_time :=
      Nat.not_lt.mpr (hle (tid, lk) (List.mem_cons_self _ _))
    simp only [FairMutex.select_waiter, if_pos h1, if_neg h2]
    exact ih lt lw (fun p hp => hns p (List.mem_cons_of_mem _ hp))
      (fun p hp => hle p (List.mem_cons_of_mem _ hp))

/-- If every cycle member is non-stale, members before the marked one have
strictly earlier wait start times, members after it have no later ones, and
the accumulator is still below the marked time, then select_waiter returns
the marked member. -/
theorem select_waiter_reaches_first (gwi : Nat → FairMutex.ThreadWaitInfo)
    (inv t l : Nat) (pre : List (Nat × Nat)) :
    ∀ (post : List (Nat × Nat)) (lt lw : Nat),
      (∀ p ∈ pre ++ (t, l) :: post, (gwi p.1).waiting_on = some p.2) →
      (∀ p ∈ pre, (gwi p.1).wait_start_time < (gwi t).wait_start_time) →
      (∀ p ∈ post, (gwi p.1).wait_start_time ≤ (gwi t).wait_start_time) →
      lt < (gwi t).wait_start_time →
      FairMutex.select_waiter gwi inv (pre ++ (t, l) :: post) lt lw = t := by
  induction pre with
  | nil =>
    intro post lt lw hns hpre hpost hlt
    have hnt : (gwi t).waiting_on = some l := hns (t, l) (List.mem_cons_self _ _)
    simp only [List.nil_append, FairMutex.select_waiter, if_pos hnt, if_pos hlt]
    exact select_waiter_no_update gwi inv post _ _
      (fun p hp => hns p (List.mem_cons_of_mem _ hp)) hpost
  | cons q pre ih =>
    intro post lt lw hns hpre hpost hlt
    obtain ⟨qt, ql⟩ := q
    have hq : (gwi qt).waiting_on = some ql := by
      refine hns (qt, ql) ?_
      rw [List.cons_append]
      exact List.mem_cons_self _ _
    have hqlt : (gwi qt).wait_start_time < (gwi t).wait_start_time :=
      hpre (qt, ql) (List.mem_cons_self _ _)
    have hns2 : ∀ p ∈ pre ++ (t, l) :: post, (gwi p.1).waiting_on = some p.2 :=
      fun p hp => hns p (by rw [List.cons_append]; exact List.mem_cons_of_mem _ hp)
    have hpre2 : ∀ p ∈ pre, (gwi p.1).wait_start_time < (gwi t).wait_start_time :=
      fun p hp => hpre p (List.mem_cons_of_mem _ hp)
    by_cases hc : lt < (gwi qt).wait_start_time
    · simp only [List.cons_append, FairMutex.select_waiter, if_pos hq, if_pos hc]
      exact ih post _ _ hns2 hpre2 hpost hqlt
    · simp only [List.cons_append, FairMutex.select_waiter, if_pos hq, if_neg hc]
      exact ih post lt lw hns2 hpre2 hpost hlt

/-- If some member of the cycle is stale, select_waiter aborts with
INVALID_THREADID whatever the accumulators hold. -/
theorem select_waiter_stale (gwi : Nat → FairMutex.ThreadWaitInfo) (inv : Nat)
    (cycle : List (Nat × Nat)) :
    ∀ lt lw, (∃ p ∈ cycle, (gwi p.1).waiting_on ≠ some p.2) →
      FairMutex.select_waiter gwi inv cycle lt lw = inv := by
  induction cycle with
  | nil => intro lt lw h; obtain ⟨p, hp, _⟩ := h; cases hp
  | cons q rest ih =>
    intro lt lw h
    obtain ⟨qt, ql⟩ := q
    by_cases hq : (gwi qt).waiting_on = some ql
    · have hrest : ∃ p ∈ rest, (gwi p.1).waiting_on ≠ some p.2 := by
        obtain ⟨p, hp, hps⟩ := h
        rcases List.mem_cons.mp hp with h1 | h2
        · subst h1; exact absurd hq hps
        · exact ⟨p, h2, hps⟩
      by_cases hc : lt < (gwi qt).wait_start_time
      · simp only [FairMutex.select_waiter, if_pos hq, if_pos hc]
        exact ih _ _ hrest
      · simp only [FairMutex.select_waiter, if_pos hq, if_neg hc]
        exact ih _ _ hrest
    · simp only [FairMutex.select_waiter, if_neg hq]

/-- Unparking on a null key touches nothing: every parked node has a real
mutex as its key. -/
theorem verify_unpark_none_key (wtid wtok : Nat) :
    ∀ (lot : List FairMutex.LotEntry) (fl : Nat → Bool),
      FairMutex.verify_unpark none wtid wtok lot fl = (lot, fl, false) := by
  intro lot
  induction lot with
  | nil => intro fl; rfl
  | cons n rest ih =>
    intro fl
    have h : ¬ (some n.key = (none : Option Nat) ∧ n.data.tid = wtid ∧
        n.data.wait_token = wtok) := by
      intro hc
      exact Option.noConfusion hc.1
    simp only [FairMutex.verify_unpark, if_neg h, ih fl]

/-- Whenever verify_unpark reports success, exactly one node was removed
from the lot: a node whose key, tid and wait token all matched, and whose
thread is marked dead locked in the resulting flag map. -/
theorem verify_unpark_true (key : Option Nat) (wtid wtok : Nat) :
    ∀ (lot : List FairMutex.LotEntry) (fl : Nat → Bool),
      (FairMutex.verify_unpark key wtid wtok lot fl).2.2 = true →
      (FairMutex.verify_unpark key wtid wtok lot fl).1.length + 1 = lot.length ∧
      ∃ n ∈ lot, some n.key = key ∧ n.data.tid = wtid ∧
        n.data.wait_token = wtok ∧
        (FairMutex.verify_unpark key wtid wtok lot fl).2.1 n.data.tid = true := by
  intro lot
  induction lot with
  | nil => intro fl h; simp [FairMutex.verify_unpark] at h
  | cons n rest ih =>
    intro fl h
    by_cases hc : some n.key = key ∧ n.data.tid = wtid ∧ n.data.wait_token = wtok
    · constructor
      · simp [FairMutex.verify_unpark, if_pos hc]
      · refine ⟨n, List.mem_cons_self _ _, hc.1, hc.2.1, hc.2.2, ?_⟩
        simp [FairMutex.verify_unpark, if_pos hc, FairMutex.set_flag]
    · have h2 : (FairMutex.verify_unpark key wtid wtok rest fl).2.2 = true := by
        simpa [FairMutex.verify_unpark, if_neg hc] using h
      obtain ⟨hlen, m, hm, hmk, hmt, hmw, hfl⟩ := ih fl h2
      constructor
      · simp only [FairMutex.verify_unpark, if_neg hc, List.length_cons]
        omega
      · refine ⟨m, List.mem_cons_of_mem _ hm, hmk, hmt, hmw, ?_⟩
        simpa [FairMutex.verify_unpark, if_neg hc] using hfl

/-- Claim C6 counterexample: with two cycle members tied at the latest
wait_start_time, the victim is whichever member the map iteration visits
first: the same two-member cycle presented in its two possible iteration
orders yields thread 2 in one and thread 5 in the other, so the tie is not
broken on thread id by any deterministic rule. -/
theorem select_waiter_tie_order_cex :
    ([((2 : Nat), (100 : Nat)), (5, 200)]).Perm [(5, 200), (2, 100)] ∧
    FairMutex.select_waiter gwiTie 8 [(2, 100), (5, 200)] 0 8 = 2 ∧
    FairMutex.select_waiter gwiTie 8 [(5, 200), (2, 100)] 0 8 = 5 :=
  ⟨List.Perm.swap _ _ _, by decide, by decide⟩

/-- Claim C6 amended: for a non-empty discovered cycle whose members all
still announce the recorded lock (and whose wait start times are real,
nonzero clock stamps), select_waiter returns the member whose
wait_start_time is latest; when several members tie at the latest time, the
one encountered first in the map iteration order wins. -/
theorem select_waiter_first_latest (gwi : Nat → FairMutex.ThreadWaitInfo)
    (inv t l : Nat) (pre post : List (Nat × Nat))
    (hns : ∀ p ∈ pre ++ (t, l) :: post, (gwi p.1).waiting_on = some p.2)
    (hpre : ∀ p ∈ pre, (gwi p.1).wait_start_time < (gwi t).wait_start_time)
    (hpost : ∀ p ∈ post, (gwi p.1).wait_start_time ≤ (gwi t).wait_start_time)
    (hpos : 0 < (gwi t).wait_start_time) :
    FairMutex.select_waiter gwi inv (pre ++ (t, l) :: post) 0 inv = t :=
  select_waiter_reaches_first gwi inv t l pre post 0 inv hns hpre hpost hpos

/-- Witness for the amended C6: in the tied two-member cycle the first
member in iteration order, thread 2, is selected. -/
theorem select_waiter_first_latest_w :
    ((∀ p ∈ ([] : List (Nat × Nat)) ++ ((2 : Nat), (100 : Nat)) :: [(5, 200)],
        (gwiTie p.1).waiting_on = some p.2) ∧
     (∀ p ∈ ([] : List (Nat × Nat)),
        (gwiTie p.1).wait_start_time < (gwiTie 2).wait_start_time) ∧
     (∀ p ∈ [((5 : Nat), (200 : Nat))],
        (gwiTie p.1).wait_start_time ≤ (gwiTie 2).wait_start_time) ∧
     0 < (gwiTie 2).wait_start_time) ∧
    FairMutex.select_waiter gwiTie 8
      (([] : List (Nat × Nat)) ++ (2, 100) :: [(5, 200)]) 0 8 = 2 :=
  ⟨⟨by decide, by decide, by decide, by decide⟩,
   select_waiter_first_latest gwiTie 8 2 100 [] [(5, 200)]
     (by decide) (by decide) (by decide) (by decide)⟩

/-- Claim C7: if some cycle member no longer announces the lock recorded in
the cycle, the pass aborts as stale: select_waiter yields INVALID_THREADID,
whose absent waiters entry reads as the zero-initialized record with a null
lock, and unparking on a null key matches no node, so the lot and the flags
are unchanged and verify_lock_cycle returns false.  Conversely, whenever
verify_lock_cycle returns true, one waiter was removed from the lot and its
thread marked dead locked, so true is returned only when the victim was
actually unparked. -/
theorem verify_lock_cycle_stale_abort :
    (∀ (gwi : Nat → FairMutex.ThreadWaitInfo) (inv : Nat)
       (waiters : Nat → FairMutex.WaiterInfo) (lot : List FairMutex.LotEntry)
       (fl : Nat → Bool) (cycle : List (Nat × Nat)),
       (∃ p ∈ cycle, (gwi p.1).waiting_on ≠ some p.2) →
       waiters inv = ⟨none, 0⟩ →
       FairMutex.verify_lock_cycle gwi inv waiters lot fl cycle =
         (lot, fl, false)) ∧
    (∀ (gwi : Nat → FairMutex.ThreadWaitInfo) (inv : Nat)
       (waiters : Nat → FairMutex.WaiterInfo) (lot : List FairMutex.LotEntry)
       (fl : Nat → Bool) (cycle : List (Nat × Nat)),
       (FairMutex.verify_lock_cycle gwi inv waiters lot fl cycle).2.2 = true →
       (FairMutex.verify_lock_cycle gwi inv waiters lot fl cycle).1.length + 1 =
         lot.length ∧
       ∃ n ∈ lot,
         (FairMutex.verify_lock_cycle gwi inv waiters lot fl cycle).2.1
           n.data.tid = true) := by
  constructor
  · intro gwi inv waiters lot fl cycle hstale hwinv
    obtain ⟨p, hp, hps⟩ := hstale
    cases cycle with
    | nil => cases hp
    | cons q rest =>
      have hsel := select_waiter_stale gwi inv (q :: rest) 0 inv ⟨p, hp, hps⟩
      simp only [FairMutex.verify_lock_cycle, List.isEmpty_cons, hsel, hwinv,
        Bool.false_eq_true, if_false]
      exact verify_unpark_none_key inv 0 lot fl
  · intro gwi inv waiters lot fl cycle htrue
    cases cycle with
    | nil => simp [FairMutex.verify_lock_cycle] at htrue
    | cons q rest =>
      simp only [FairMutex.verify_lock_cycle, List.isEmpty_cons,
        Bool.false_eq_true, if_false] at htrue ⊢
      obtain ⟨hlen, m, hm, _, _, _, hfl⟩ :=
        verify_unpark_true _ _ _ lot fl htrue
      exact ⟨hlen, m, hm, hfl⟩

/-- Witness for C7: a cycle whose second member records lock 201 while
thread 5 announces lock 200 is stale; the one-node lot and the flag map are
untouched and the pass reports false. -/
theorem verify_lock_cycle_stale_abort_w :
    ((∃ p ∈ [((2 : Nat), (100 : Nat)), (5, 201)],
        (gwiTie p.1).waiting_on ≠ some p.2) ∧
     wtrsDefault 8 = (⟨none, 0⟩ : FairMutex.WaiterInfo)) ∧
    FairMutex.verify_lock_cycle gwiTie 8 wtrsDefault lotC7 flFalse
      [(2, 100), (5, 201)] = (lotC7, flFalse, false) :=
  ⟨⟨by decide, by decide⟩,
   verify_lock_cycle_stale_abort.1 gwiTie 8 wtrsDefault lotC7 flFalse
     [(2, 100), (5, 201)] (by decide) (by decide)⟩

/-- Claim C8: check_deadlock returns true only if every (thread, lock) pair
recorded during its cycle search still matches the thread_waiting_on
snapshot read while holding dead_lock_verify_mutex; it then clears the
announcement slot of the calling thread, and the pending lock_contended
iteration of the caller returns DEADLOCKED with the lock word untouched
(the mutex is not acquired). -/
theorem check_deadlock_sound (lwOf : Nat → Nat) (tbl1 tbl2 : Nat → Option Nat)
    (self selfLock fuel : Nat)
    (h : (StdMutex.check_deadlock lwOf tbl1 tbl2 self selfLock fuel).1 = true) :
    (∃ ws, StdMutex.detect_deadlock lwOf tbl1 self selfLock fuel = some ws ∧
       ∀ p ∈ ws, tbl2 p.1 = some p.2) ∧
    (StdMutex.check_deadlock lwOf tbl1 tbl2 self selfLock fuel).2 self = none ∧
    (∀ w, w ≠ StdMutex.M_UNLOCKED →
       StdMutex.lock_contended_step self w ParkResult.Timeout true =
         (some MutexLockResult.DEADLOCKED, w)) := by
  cases hd : StdMutex.detect_deadlock lwOf tbl1 self selfLock fuel with
  | none =>
    rw [StdMutex.check_deadlock, hd] at h
    simp at h
  | some ws =>
    rw [StdMutex.check_deadlock, hd] at h
    by_cases hall : ws.all (fun p => tbl2 p.1 == some p.2) = true
    · refine ⟨⟨ws, rfl, ?_⟩, ?_, ?_⟩
      · intro p hp
        exact eq_of_beq (List.all_eq_true.mp hall p hp)
      · rw [StdMutex.check_deadlock, hd]
        simp [hall]
      · intro w hw
        simp [StdMutex.lock_contended_step, StdMutex.park_safe, hw]
    · simp [hall] at h

/-- Witness for C8: in the two-mutex deadlock of lwOf8 and tblC8, thread 0
confirms the cycle with fuel 3 and the stated conclusions hold. -/
theorem check_deadlock_sound_w :
    (StdMutex.check_deadlock lwOf8 tblC8 tblC8 0 10 3).1 = true ∧
    ((∃ ws, StdMutex.detect_deadlock lwOf8 tblC8 0 10 3 = some ws ∧
        ∀ p ∈ ws, tblC8 p.1 = some p.2) ∧
     (StdMutex.check_deadlock lwOf8 tblC8 tblC8 0 10 3).2 0 = none ∧
     (∀ w, w ≠ StdMutex.M_UNLOCKED →
        StdMutex.lock_contended_step 0 w ParkResult.Timeout true =
          (some MutexLockResult.DEADLOCKED, w))) :=
  ⟨by decide, check_deadlock_sound lwOf8 tblC8 tblC8 0 10 3 (by decide)⟩

end SyncPrim
